import Mathlib

/-!
Verification of the client-side cache synchronization layer of a dating-app
front-end. The development shallowly embeds the message-cache mutation
recipes of the send-message mutation hook and of the per-conversation
realtime reconciliation hook, the paginated discovery and message queries,
the like / unlike / pass mutation flows, and the smart fallback selector
hooks, and proves (or refutes) the specified properties about them.
-/

namespace DatingApp

/-! ## Data model

Mirrors the Message interface and the pagination envelope produced by the
queryFn of useMatchMessagesPaginated: a page holds the (per-page reversed)
messages, the nextPage cursor, the hasMore flag and the running totalLoaded
counter. The infinite-query cache is the record of pages and pageParams.
Timestamps are modelled as naturals, ids as strings. totalLoaded is an
integer because the realtime delete patch decrements it unconditionally.
-/

structure Message where
  id : String
  match_id : String
  sender_id : String
  content : String
  created_at : Nat
  read_at : Option Nat := none
deriving DecidableEq, Repr

structure MessagesPage where
  messages : List Message
  nextPage : Option Nat
  hasMore : Bool
  totalLoaded : Int
deriving DecidableEq, Repr

structure PaginatedMessagesCache where
  pages : List MessagesPage
  pageParams : List Nat
deriving DecidableEq, Repr

/-- Initial single-page collection built by both insert recipes when the
paginated cache is absent or has no pages yet. -/
def initialPaginatedCache (newMessage : Message) : PaginatedMessagesCache :=
  { pages := [{ messages := [newMessage], nextPage := none, hasMore := false,
                totalLoaded := 1 }],
    pageParams := [0] }

/-! ## Cache-update recipes

Each recipe is the pure updater passed to queryClient.setQueryData. An
absent cache entry is the `none` case.
-/

/-- Optimistic append recipe of useSendMessage onSuccess for the
match-messages-paginated cache: create an initial page if no data yet,
no-op if any cached page already holds the id, else append to the first
page and bump its totalLoaded. -/
def sendMessageUpdatePaginated (newMessage : Message) :
    Option PaginatedMessagesCache → PaginatedMessagesCache
  | none => initialPaginatedCache newMessage
  | some old =>
    if old.pages.isEmpty then initialPaginatedCache newMessage
    else
      let allMessages := old.pages.flatMap (·.messages)
      if allMessages.any (fun msg => msg.id == newMessage.id) then old
      else
        let updatedPages :=
          match old.pages with
          | [] => old.pages
          | firstPage :: rest =>
            { firstPage with
              messages := firstPage.messages ++ [newMessage],
              totalLoaded := firstPage.totalLoaded + 1 } :: rest
        { old with pages := updatedPages }

/-- Optimistic append recipe of useSendMessage onSuccess for the flat
match-messages cache. -/
def sendMessageUpdateFlat (newMessage : Message) :
    Option (List Message) → List Message
  | none => [newMessage]
  | some old =>
    if old.any (fun msg => msg.id == newMessage.id) then old
    else old ++ [newMessage]

/-- Realtime INSERT patch of useMessagesRealtime for the paginated cache
(textually the same recipe as the optimistic one). -/
def messagesRealtimeInsertPaginated (newMessage : Message) :
    Option PaginatedMessagesCache → PaginatedMessagesCache
  | none => initialPaginatedCache newMessage
  | some old =>
    if old.pages.isEmpty then initialPaginatedCache newMessage
    else
      let allMessages := old.pages.flatMap (·.messages)
      if allMessages.any (fun msg => msg.id == newMessage.id) then old
      else
        let updatedPages :=
          match old.pages with
          | [] => old.pages
          | firstPage :: rest =>
            { firstPage with
              messages := firstPage.messages ++ [newMessage],
              totalLoaded := firstPage.totalLoaded + 1 } :: rest
        { old with pages := updatedPages }

/-- Realtime INSERT patch of useMessagesRealtime for the flat cache. -/
def messagesRealtimeInsertFlat (newMessage : Message) :
    Option (List Message) → List Message
  | none => [newMessage]
  | some old =>
    if old.any (fun msg => msg.id == newMessage.id) then old
    else old ++ [newMessage]

/-- Realtime UPDATE patch: replace the matching id in place across all
cached pages; no-op when the cache entry is absent. -/
def messagesRealtimeUpdatePaginated (updatedMessage : Message) :
    Option PaginatedMessagesCache → Option PaginatedMessagesCache :=
  Option.map fun old =>
    { old with
      pages := old.pages.map fun page =>
        { page with
          messages := page.messages.map fun msg =>
            if msg.id == updatedMessage.id then updatedMessage else msg } }

/-- Realtime UPDATE patch for the flat cache. -/
def messagesRealtimeUpdateFlat (updatedMessage : Message) :
    Option (List Message) → Option (List Message) :=
  Option.map fun old =>
    old.map fun msg => if msg.id == updatedMessage.id then updatedMessage else msg

/-- Realtime DELETE patch: filter the matching id out of every page and
decrement every page's totalLoaded. -/
def messagesRealtimeDeletePaginated (deletedMessage : Message) :
    Option PaginatedMessagesCache → Option PaginatedMessagesCache :=
  Option.map fun old =>
    { old with
      pages := old.pages.map fun page =>
        { page with
          messages := page.messages.filter fun msg => msg.id != deletedMessage.id,
          totalLoaded := page.totalLoaded - 1 } }

/-- Realtime DELETE patch for the flat cache. -/
def messagesRealtimeDeleteFlat (deletedMessage : Message) :
    Option (List Message) → Option (List Message) :=
  Option.map fun old => old.filter fun msg => msg.id != deletedMessage.id

/-! ## Event model

The two message caches for one match, and the message cache mutation
events that may hit them: the optimistic append of SendMessage and the
realtime INSERT / UPDATE / DELETE patches.
-/

structure MessagesCacheState where
  paginated : Option PaginatedMessagesCache
  flat : Option (List Message)
deriving DecidableEq, Repr

inductive MessageEvent
  | optimisticSend (m : Message)
  | realtimeInsert (m : Message)
  | realtimeUpdate (m : Message)
  | realtimeDelete (m : Message)
deriving DecidableEq, Repr

def MessageEvent.msg : MessageEvent → Message
  | .optimisticSend m => m
  | .realtimeInsert m => m
  | .realtimeUpdate m => m
  | .realtimeDelete m => m

def MessageEvent.isInsert : MessageEvent → Bool
  | .optimisticSend _ => true
  | .realtimeInsert _ => true
  | _ => false

def MessageEvent.isDelete : MessageEvent → Bool
  | .realtimeDelete _ => true
  | _ => false

def applyMessageEvent (s : MessagesCacheState) : MessageEvent → MessagesCacheState
  | .optimisticSend m =>
    { paginated := some (sendMessageUpdatePaginated m s.paginated),
      flat := some (sendMessageUpdateFlat m s.flat) }
  | .realtimeInsert m =>
    { paginated := some (messagesRealtimeInsertPaginated m s.paginated),
      flat := some (messagesRealtimeInsertFlat m s.flat) }
  | .realtimeUpdate m =>
    { paginated := messagesRealtimeUpdatePaginated m s.paginated,
      flat := messagesRealtimeUpdateFlat m s.flat }
  | .realtimeDelete m =>
    { paginated := messagesRealtimeDeletePaginated m s.paginated,
      flat := messagesRealtimeDeleteFlat m s.flat }

/-- All messages held by the paginated cache, in page order. -/
def paginatedMessages : Option PaginatedMessagesCache → List Message
  | none => []
  | some old => old.pages.flatMap (·.messages)

def flatMessages : Option (List Message) → List Message
  | none => []
  | some old => old

/-- Per-page message lists of the paginated cache (everything except the
envelope fields such as totalLoaded). -/
def pagesMessagesOf : Option PaginatedMessagesCache → List (List Message)
  | none => []
  | some old => old.pages.map (·.messages)

def countId (l : List Message) (i : String) : Nat :=
  l.countP fun msg => msg.id == i

/-! ## Dedup invariant (C1) -/

lemma countId_append (l₁ l₂ : List Message) (i : String) :
    countId (l₁ ++ l₂) i = countId l₁ i + countId l₂ i :=
  List.countP_append _ _ _

lemma countId_insert_paginated (m : Message) (o : Option PaginatedMessagesCache)
    (i : String) (hm : m.id = i) :
    countId (paginatedMessages (some (sendMessageUpdatePaginated m o))) i =
      if countId (paginatedMessages o) i = 0 then 1
      else countId (paginatedMessages o) i := by
  subst hm
  cases o with
  | none =>
    simp [sendMessageUpdatePaginated, paginatedMessages, initialPaginatedCache,
      countId]
  | some c =>
    rcases c with ⟨pages, pageParams⟩
    cases pages with
    | nil =>
      simp [sendMessageUpdatePaginated, paginatedMessages, initialPaginatedCache,
        countId]
    | cons p0 rest =>
      by_cases hany :
          ((p0 :: rest).flatMap (·.messages)).any (fun msg => msg.id == m.id) = true
      · have hpos : 0 < countId ((p0 :: rest).flatMap (·.messages)) m.id :=
          List.countP_pos_iff.mpr (List.any_eq_true.mp hany)
        simp only [sendMessageUpdatePaginated, List.isEmpty_cons, if_false,
          Bool.false_eq_true, ite_false, hany, ite_true, paginatedMessages]
        rw [if_neg (by omega)]
      · have hzero : countId ((p0 :: rest).flatMap (·.messages)) m.id = 0 := by
          rw [countId, List.countP_eq_zero]
          intro a ha
          exact fun hpa => hany (List.any_eq_true.mpr ⟨a, ha, hpa⟩)
        simp only [sendMessageUpdatePaginated, List.isEmpty_cons, Bool.false_eq_true,
          ite_false, hany, paginatedMessages]
        rw [if_pos hzero]
        rw [List.flatMap_cons] at hzero ⊢
        rw [countId_append] at hzero ⊢
        rw [countId_append]
        have h1 : countId [m] m.id = 1 := by simp [countId]
        omega

lemma countId_insert_flat (m : Message) (o : Option (List Message))
    (i : String) (hm : m.id = i) :
    countId (flatMessages (some (sendMessageUpdateFlat m o))) i =
      if countId (flatMessages o) i = 0 then 1
      else countId (flatMessages o) i := by
  subst hm
  cases o with
  | none => simp [sendMessageUpdateFlat, flatMessages, countId]
  | some l =>
    by_cases hany : l.any (fun msg => msg.id == m.id) = true
    · have hpos : 0 < countId l m.id :=
        List.countP_pos_iff.mpr (List.any_eq_true.mp hany)
      simp only [sendMessageUpdateFlat, hany, ite_true, flatMessages]
      rw [if_neg (by omega)]
    · have hzero : countId l m.id = 0 := by
        rw [countId, List.countP_eq_zero]
        intro a ha
        exact fun hpa => hany (List.any_eq_true.mpr ⟨a, ha, hpa⟩)
      simp only [sendMessageUpdateFlat, hany, Bool.false_eq_true, ite_false,
        flatMessages]
      rw [if_pos hzero, countId_append, hzero]
      simp [countId]

/-- The realtime INSERT recipe is the same function as the optimistic one. -/
lemma realtimeInsert_paginated_eq :
    messagesRealtimeInsertPaginated = sendMessageUpdatePaginated := by
  funext m o
  cases o <;> rfl

lemma realtimeInsert_flat_eq :
    messagesRealtimeInsertFlat = sendMessageUpdateFlat := by
  funext m o
  cases o <;> rfl

lemma countId_insertEvent (e : MessageEvent) (s : MessagesCacheState) (i : String)
    (he : e.isInsert = true) (hid : e.msg.id = i) :
    countId (paginatedMessages (applyMessageEvent s e).paginated) i =
        (if countId (paginatedMessages s.paginated) i = 0 then 1
         else countId (paginatedMessages s.paginated) i) ∧
    countId (flatMessages (applyMessageEvent s e).flat) i =
        (if countId (flatMessages s.flat) i = 0 then 1
         else countId (flatMessages s.flat) i) := by
  cases e with
  | optimisticSend m =>
    exact ⟨countId_insert_paginated m s.paginated i hid,
      countId_insert_flat m s.flat i hid⟩
  | realtimeInsert m =>
    constructor
    · show countId (paginatedMessages (some (messagesRealtimeInsertPaginated m s.paginated))) i = _
      rw [realtimeInsert_paginated_eq]
      exact countId_insert_paginated m s.paginated i hid
    · show countId (flatMessages (some (messagesRealtimeInsertFlat m s.flat))) i = _
      rw [realtimeInsert_flat_eq]
      exact countId_insert_flat m s.flat i hid
  | realtimeUpdate m => simp [MessageEvent.isInsert] at he
  | realtimeDelete m => simp [MessageEvent.isInsert] at he

lemma foldl_insert_keeps_one (events : List MessageEvent) (i : String)
    (h : ∀ e ∈ events, e.isInsert = true ∧ e.msg.id = i) :
    ∀ s : MessagesCacheState,
      countId (paginatedMessages s.paginated) i = 1 →
      countId (flatMessages s.flat) i = 1 →
      countId (paginatedMessages ((events.foldl applyMessageEvent s).paginated)) i = 1 ∧
      countId (flatMessages ((events.foldl applyMessageEvent s).flat)) i = 1 := by
  induction events with
  | nil => exact fun s hp hf => ⟨hp, hf⟩
  | cons e rest ih =>
    intro s hp hf
    have he := h e (by simp)
    have step := countId_insertEvent e s i he.1 he.2
    rw [List.foldl_cons]
    refine ih (fun e' he' => h e' (by simp [he'])) _ ?_ ?_
    · rw [step.1, hp]; simp
    · rw [step.2, hf]; simp

/-- Claim C1: for every nonempty sequence of message insert events
(optimistic SendMessage appends and realtime INSERT patches, interleaved
and repeated arbitrarily) all carrying the same message id, starting from
caches holding at most one entry with that id, the final paginated cache
and the final flat cache each contain exactly one entry with that id. -/
theorem message_insert_dedup_invariant (events : List MessageEvent) (i : String)
    (s0 : MessagesCacheState)
    (hne : events ≠ [])
    (hins : ∀ e ∈ events, e.isInsert = true ∧ e.msg.id = i)
    (hp : countId (paginatedMessages s0.paginated) i ≤ 1)
    (hf : countId (flatMessages s0.flat) i ≤ 1) :
    countId (paginatedMessages ((events.foldl applyMessageEvent s0).paginated)) i = 1 ∧
    countId (flatMessages ((events.foldl applyMessageEvent s0).flat)) i = 1 := by
  cases events with
  | nil => exact absurd rfl hne
  | cons e rest =>
    have he := hins e (by simp)
    have step := countId_insertEvent e s0 i he.1 he.2
    rw [List.foldl_cons]
    refine foldl_insert_keeps_one rest i
      (fun e' he' => hins e' (by simp [he'])) _ ?_ ?_
    · rw [step.1]
      rcases Nat.lt_or_ge (countId (paginatedMessages s0.paginated) i) 1 with h1 | h1
      · rw [if_pos (by omega)]
      · rw [if_neg (by omega)]; omega
    · rw [step.2]
      rcases Nat.lt_or_ge (countId (flatMessages s0.flat) i) 1 with h1 | h1
      · rw [if_pos (by omega)]
      · rw [if_neg (by omega)]; omega

/-- Witness for C1 at a concrete interleaving: optimistic append of message
m1, then its realtime echo, then a second optimistic duplicate, starting
from empty caches, ends with exactly one m1 in each cache. -/
theorem message_insert_dedup_invariant_witness :
    ([MessageEvent.optimisticSend ⟨"m1", "M", "u1", "hi", 1, none⟩,
      MessageEvent.realtimeInsert ⟨"m1", "M", "u1", "hi", 1, none⟩,
      MessageEvent.optimisticSend ⟨"m1", "M", "u1", "hi", 1, none⟩] ≠
        ([] : List MessageEvent)) ∧
    countId (paginatedMessages
      (([MessageEvent.optimisticSend ⟨"m1", "M", "u1", "hi", 1, none⟩,
         MessageEvent.realtimeInsert ⟨"m1", "M", "u1", "hi", 1, none⟩,
         MessageEvent.optimisticSend ⟨"m1", "M", "u1", "hi", 1, none⟩].foldl
          applyMessageEvent ⟨none, none⟩).paginated)) "m1" = 1 ∧
    countId (flatMessages
      (([MessageEvent.optimisticSend ⟨"m1", "M", "u1", "hi", 1, none⟩,
         MessageEvent.realtimeInsert ⟨"m1", "M", "u1", "hi", 1, none⟩,
         MessageEvent.optimisticSend ⟨"m1", "M", "u1", "hi", 1, none⟩].foldl
          applyMessageEvent ⟨none, none⟩).flat)) "m1" = 1 :=
  ⟨by decide,
   message_insert_dedup_invariant _ "m1" ⟨none, none⟩ (by decide) (by decide)
     (by decide) (by decide)⟩

/-! ## Duplicate-delivery behaviour of the recipes (C2) -/

lemma mem_insert_paginated {m' : Message} {o : Option PaginatedMessagesCache}
    {x : Message}
    (hx : x ∈ paginatedMessages (some (sendMessageUpdatePaginated m' o))) :
    x ∈ paginatedMessages o ∨ x = m' := by
  cases o with
  | none =>
    simp [sendMessageUpdatePaginated, initialPaginatedCache, paginatedMessages] at hx
    exact Or.inr hx
  | some c =>
    rcases c with ⟨pages, pageParams⟩
    cases pages with
    | nil =>
      simp [sendMessageUpdatePaginated, initialPaginatedCache, paginatedMessages] at hx
      exact Or.inr hx
    | cons p0 rest =>
      by_cases hany :
          ((p0 :: rest).flatMap (·.messages)).any (fun msg => msg.id == m'.id) = true
      · simp only [sendMessageUpdatePaginated, List.isEmpty_cons, Bool.false_eq_true,
          ite_false, hany, ite_true] at hx
        exact Or.inl hx
      · simp only [sendMessageUpdatePaginated, List.isEmpty_cons, Bool.false_eq_true,
          ite_false, hany] at hx
        simp only [paginatedMessages, List.flatMap_cons, List.mem_append,
          List.mem_cons, List.mem_singleton] at hx ⊢
        tauto

lemma subset_insert_paginated {m' : Message} {o : Option PaginatedMessagesCache}
    {x : Message} (hx : x ∈ paginatedMessages o) :
    x ∈ paginatedMessages (some (sendMessageUpdatePaginated m' o)) := by
  cases o with
  | none => simp [paginatedMessages] at hx
  | some c =>
    rcases c with ⟨pages, pageParams⟩
    cases pages with
    | nil => simp [paginatedMessages] at hx
    | cons p0 rest =>
      by_cases hany :
          ((p0 :: rest).flatMap (·.messages)).any (fun msg => msg.id == m'.id) = true
      · simpa only [sendMessageUpdatePaginated, List.isEmpty_cons, Bool.false_eq_true,
          ite_false, hany, ite_true] using hx
      · simp only [sendMessageUpdatePaginated, List.isEmpty_cons, Bool.false_eq_true,
          ite_false, hany]
        simp only [paginatedMessages, List.flatMap_cons, List.mem_append,
          List.mem_cons, List.mem_singleton] at hx ⊢
        tauto

lemma mem_insert_flat {m' : Message} {o : Option (List Message)} {x : Message}
    (hx : x ∈ flatMessages (some (sendMessageUpdateFlat m' o))) :
    x ∈ flatMessages o ∨ x = m' := by
  cases o with
  | none =>
    simp [sendMessageUpdateFlat, flatMessages] at hx
    exact Or.inr hx
  | some l =>
    by_cases hany : l.any (fun msg => msg.id == m'.id) = true
    · simp only [sendMessageUpdateFlat, hany, ite_true, flatMessages] at hx
      exact Or.inl hx
    · simp only [sendMessageUpdateFlat, hany, Bool.false_eq_true, ite_false,
        flatMessages, List.mem_append, List.mem_singleton] at hx
      exact hx

lemma subset_insert_flat {m' : Message} {o : Option (List Message)} {x : Message}
    (hx : x ∈ flatMessages o) :
    x ∈ flatMessages (some (sendMessageUpdateFlat m' o)) := by
  cases o with
  | none => simp [flatMessages] at hx
  | some l =>
    by_cases hany : l.any (fun msg => msg.id == m'.id) = true
    · simpa only [sendMessageUpdateFlat, hany, ite_true, flatMessages] using hx
    · simp only [sendMessageUpdateFlat, hany, Bool.false_eq_true, ite_false,
        flatMessages, List.mem_append, List.mem_singleton]
      exact Or.inl hx

lemma flatMap_filter_messages (p : Message → Bool) (pages : List MessagesPage) :
    (pages.flatMap fun pg => pg.messages.filter p) =
      (pages.flatMap (·.messages)).filter p := by
  induction pages with
  | nil => rfl
  | cons p0 rest ih => simp only [List.flatMap_cons, List.filter_append, ih]

lemma paginatedMessages_update (m' : Message) (o : Option PaginatedMessagesCache) :
    paginatedMessages (messagesRealtimeUpdatePaginated m' o) =
      (paginatedMessages o).map
        (fun msg => if msg.id == m'.id then m' else msg) := by
  cases o with
  | none => rfl
  | some c =>
    simp only [messagesRealtimeUpdatePaginated, Option.map_some', paginatedMessages,
      List.flatMap_map, List.map_flatMap]

lemma paginatedMessages_delete (m' : Message) (o : Option PaginatedMessagesCache) :
    paginatedMessages (messagesRealtimeDeletePaginated m' o) =
      (paginatedMessages o).filter (fun msg => msg.id != m'.id) := by
  cases o with
  | none => rfl
  | some c =>
    simp only [messagesRealtimeDeletePaginated, Option.map_some', paginatedMessages,
      List.flatMap_map]
    exact flatMap_filter_messages _ _

lemma flatMessages_update (m' : Message) (o : Option (List Message)) :
    flatMessages (messagesRealtimeUpdateFlat m' o) =
      (flatMessages o).map (fun msg => if msg.id == m'.id then m' else msg) := by
  cases o <;> rfl

lemma flatMessages_delete (m' : Message) (o : Option (List Message)) :
    flatMessages (messagesRealtimeDeleteFlat m' o) =
      (flatMessages o).filter (fun msg => msg.id != m'.id) := by
  cases o <;> rfl

/-! Invariants used to analyse duplicate delivery: after an insert both
caches hold the id; after an update every cached entry with the id equals
the updated row; after a delete no cached entry has the id. Each is stated
over the flattened cache contents. -/

def HasId (i : String) (s : MessagesCacheState) : Prop :=
  0 < countId (paginatedMessages s.paginated) i ∧
  0 < countId (flatMessages s.flat) i

def AllEqId (i : String) (m : Message) (s : MessagesCacheState) : Prop :=
  (∀ x ∈ paginatedMessages s.paginated, x.id = i → x = m) ∧
  (∀ x ∈ flatMessages s.flat, x.id = i → x = m)

def NoId (i : String) (s : MessagesCacheState) : Prop :=
  (∀ x ∈ paginatedMessages s.paginated, x.id ≠ i) ∧
  (∀ x ∈ flatMessages s.flat, x.id ≠ i)

lemma countId_pos_iff (l : List Message) (i : String) :
    0 < countId l i ↔ ∃ x ∈ l, x.id = i := by
  rw [countId, List.countP_pos_iff]
  simp

lemma hasId_preserved (i : String) (e' : MessageEvent) (s : MessagesCacheState)
    (hne : e'.msg.id ≠ i) (h : HasId i s) : HasId i (applyMessageEvent s e') := by
  obtain ⟨hp, hf⟩ := h
  obtain ⟨xp, hxp, hxpi⟩ := (countId_pos_iff _ _).mp hp
  obtain ⟨xf, hxf, hxfi⟩ := (countId_pos_iff _ _).mp hf
  cases e' with
  | optimisticSend m' =>
    exact ⟨(countId_pos_iff _ _).mpr ⟨xp, subset_insert_paginated hxp, hxpi⟩,
      (countId_pos_iff _ _).mpr ⟨xf, subset_insert_flat hxf, hxfi⟩⟩
  | realtimeInsert m' =>
    refine ⟨(countId_pos_iff _ _).mpr ⟨xp, ?_, hxpi⟩,
      (countId_pos_iff _ _).mpr ⟨xf, ?_, hxfi⟩⟩
    · show xp ∈ paginatedMessages (some (messagesRealtimeInsertPaginated m' s.paginated))
      rw [realtimeInsert_paginated_eq]
      exact subset_insert_paginated hxp
    · show xf ∈ flatMessages (some (messagesRealtimeInsertFlat m' s.flat))
      rw [realtimeInsert_flat_eq]
      exact subset_insert_flat hxf
  | realtimeUpdate m' =>
    have hxpne : (xp.id == m'.id) = false := by
      simpa using fun hcon => hne (by rw [MessageEvent.msg, ← hcon, hxpi])
    have hxfne : (xf.id == m'.id) = false := by
      simpa using fun hcon => hne (by rw [MessageEvent.msg, ← hcon, hxfi])
    constructor
    · rw [show (applyMessageEvent s (.realtimeUpdate m')).paginated =
        messagesRealtimeUpdatePaginated m' s.paginated from rfl,
        paginatedMessages_update]
      refine (countId_pos_iff _ _).mpr ⟨xp, List.mem_map.mpr ⟨xp, hxp, ?_⟩, hxpi⟩
      simp [hxpne]
    · rw [show (applyMessageEvent s (.realtimeUpdate m')).flat =
        messagesRealtimeUpdateFlat m' s.flat from rfl, flatMessages_update]
      refine (countId_pos_iff _ _).mpr ⟨xf, List.mem_map.mpr ⟨xf, hxf, ?_⟩, hxfi⟩
      simp [hxfne]
  | realtimeDelete m' =>
    constructor
    · rw [show (applyMessageEvent s (.realtimeDelete m')).paginated =
        messagesRealtimeDeletePaginated m' s.paginated from rfl,
        paginatedMessages_delete]
      refine (countId_pos_iff _ _).mpr ⟨xp, List.mem_filter.mpr ⟨hxp, ?_⟩, hxpi⟩
      simp only [bne_iff_ne]
      exact fun hcon => hne (by rw [MessageEvent.msg, ← hcon, hxpi])
    · rw [show (applyMessageEvent s (.realtimeDelete m')).flat =
        messagesRealtimeDeleteFlat m' s.flat from rfl, flatMessages_delete]
      refine (countId_pos_iff _ _).mpr ⟨xf, List.mem_filter.mpr ⟨hxf, ?_⟩, hxfi⟩
      simp only [bne_iff_ne]
      exact fun hcon => hne (by rw [MessageEvent.msg, ← hcon, hxfi])

lemma allEqId_preserved (i : String) (m : Message) (e' : MessageEvent)
    (s : MessagesCacheState) (hne : e'.msg.id ≠ i) (h : AllEqId i m s) :
    AllEqId i m (applyMessageEvent s e') := by
  obtain ⟨hp, hf⟩ := h
  cases e' with
  | optimisticSend m' =>
    refine ⟨fun x hx hxi => ?_, fun x hx hxi => ?_⟩
    · rcases mem_insert_paginated hx with hmem | hrfl
      · exact hp x hmem hxi
      · exact absurd (hrfl ▸ hxi) hne
    · rcases mem_insert_flat hx with hmem | hrfl
      · exact hf x hmem hxi
      · exact absurd (hrfl ▸ hxi) hne
  | realtimeInsert m' =>
    refine ⟨fun x hx hxi => ?_, fun x hx hxi => ?_⟩
    · rw [show (applyMessageEvent s (.realtimeInsert m')).paginated =
        some (messagesRealtimeInsertPaginated m' s.paginated) from rfl,
        realtimeInsert_paginated_eq] at hx
      rcases mem_insert_paginated hx with hmem | hrfl
      · exact hp x hmem hxi
      · exact absurd (hrfl ▸ hxi) hne
    · rw [show (applyMessageEvent s (.realtimeInsert m')).flat =
        some (messagesRealtimeInsertFlat m' s.flat) from rfl,
        realtimeInsert_flat_eq] at hx
      rcases mem_insert_flat hx with hmem | hrfl
      · exact hf x hmem hxi
      · exact absurd (hrfl ▸ hxi) hne
  | realtimeUpdate m' =>
    refine ⟨fun x hx hxi => ?_, fun x hx hxi => ?_⟩
    · rw [show (applyMessageEvent s (.realtimeUpdate m')).paginated =
        messagesRealtimeUpdatePaginated m' s.paginated from rfl,
        paginatedMessages_update] at hx
      obtain ⟨y, hy, hyx⟩ := List.mem_map.mp hx
      by_cases hyid : (y.id == m'.id) = true
      · rw [if_pos hyid] at hyx
        exact absurd (hyx ▸ hxi) hne
      · rw [if_neg hyid] at hyx
        exact hp x (hyx ▸ hy) hxi
    · rw [show (applyMessageEvent s (.realtimeUpdate m')).flat =
        messagesRealtimeUpdateFlat m' s.flat from rfl, flatMessages_update] at hx
      obtain ⟨y, hy, hyx⟩ := List.mem_map.mp hx
      by_cases hyid : (y.id == m'.id) = true
      · rw [if_pos hyid] at hyx
        exact absurd (hyx ▸ hxi) hne
      · rw [if_neg hyid] at hyx
        exact hf x (hyx ▸ hy) hxi
  | realtimeDelete m' =>
    refine ⟨fun x hx hxi => ?_, fun x hx hxi => ?_⟩
    · rw [show (applyMessageEvent s (.realtimeDelete m')).paginated =
        messagesRealtimeDeletePaginated m' s.paginated from rfl,
        paginatedMessages_delete] at hx
      exact hp x (List.mem_filter.mp hx).1 hxi
    · rw [show (applyMessageEvent s (.realtimeDelete m')).flat =
        messagesRealtimeDeleteFlat m' s.flat from rfl, flatMessages_delete] at hx
      exact hf x (List.mem_filter.mp hx).1 hxi

lemma noId_preserved (i : String) (e' : MessageEvent) (s : MessagesCacheState)
    (hne : e'.msg.id ≠ i) (h : NoId i s) : NoId i (applyMessageEvent s e') := by
  obtain ⟨hp, hf⟩ := h
  cases e' with
  | optimisticSend m' =>
    refine ⟨fun x hx => ?_, fun x hx => ?_⟩
    · rcases mem_insert_paginated hx with hmem | hrfl
      · exact hp x hmem
      · exact hrfl ▸ hne
    · rcases mem_insert_flat hx with hmem | hrfl
      · exact hf x hmem
      · exact hrfl ▸ hne
  | realtimeInsert m' =>
    refine ⟨fun x hx => ?_, fun x hx => ?_⟩
    · rw [show (applyMessageEvent s (.realtimeInsert m')).paginated =
        some (messagesRealtimeInsertPaginated m' s.paginated) from rfl,
        realtimeInsert_paginated_eq] at hx
      rcases mem_insert_paginated hx with hmem | hrfl
      · exact hp x hmem
      · exact hrfl ▸ hne
    · rw [show (applyMessageEvent s (.realtimeInsert m')).flat =
        some (messagesRealtimeInsertFlat m' s.flat) from rfl,
        realtimeInsert_flat_eq] at hx
      rcases mem_insert_flat hx with hmem | hrfl
      · exact hf x hmem
      · exact hrfl ▸ hne
  | realtimeUpdate m' =>
    refine ⟨fun x hx => ?_, fun x hx => ?_⟩
    · rw [show (applyMessageEvent s (.realtimeUpdate m')).paginated =
        messagesRealtimeUpdatePaginated m' s.paginated from rfl,
        paginatedMessages_update] at hx
      obtain ⟨y, hy, hyx⟩ := List.mem_map.mp hx
      by_cases hyid : (y.id == m'.id) = true
      · rw [if_pos hyid] at hyx
        exact hyx ▸ hne
      · rw [if_neg hyid] at hyx
        exact hyx ▸ hp y hy
    · rw [show (applyMessageEvent s (.realtimeUpdate m')).flat =
        messagesRealtimeUpdateFlat m' s.flat from rfl, flatMessages_update] at hx
      obtain ⟨y, hy, hyx⟩ := List.mem_map.mp hx
      by_cases hyid : (y.id == m'.id) = true
      · rw [if_pos hyid] at hyx
        exact hyx ▸ hne
      · rw [if_neg hyid] at hyx
        exact hyx ▸ hf y hy
  | realtimeDelete m' =>
    refine ⟨fun x hx => ?_, fun x hx => ?_⟩
    · rw [show (applyMessageEvent s (.realtimeDelete m')).paginated =
        messagesRealtimeDeletePaginated m' s.paginated from rfl,
        paginatedMessages_delete] at hx
      exact hp x (List.mem_filter.mp hx).1
    · rw [show (applyMessageEvent s (.realtimeDelete m')).flat =
        messagesRealtimeDeleteFlat m' s.flat from rfl, flatMessages_delete] at hx
      exact hf x (List.mem_filter.mp hx).1

lemma sendMessageUpdatePaginated_noop (m : Message) (c : PaginatedMessagesCache)
    (h : 0 < countId (paginatedMessages (some c)) m.id) :
    sendMessageUpdatePaginated m (some c) = c := by
  obtain ⟨x, hx, hxi⟩ := (countId_pos_iff _ _).mp h
  rcases c with ⟨pages, pageParams⟩
  cases pages with
  | nil => simp [paginatedMessages] at hx
  | cons p0 rest =>
    have hany : ((p0 :: rest).flatMap (·.messages)).any
        (fun msg => msg.id == m.id) = true :=
      List.any_eq_true.mpr ⟨x, hx, by simp [hxi]⟩
    simp only [sendMessageUpdatePaginated, List.isEmpty_cons, Bool.false_eq_true,
      ite_false, hany, ite_true]

lemma sendMessageUpdateFlat_noop (m : Message) (l : List Message)
    (h : 0 < countId l m.id) :
    sendMessageUpdateFlat m (some l) = l := by
  obtain ⟨x, hx, hxi⟩ := (countId_pos_iff _ _).mp h
  have hany : l.any (fun msg => msg.id == m.id) = true :=
    List.any_eq_true.mpr ⟨x, hx, by simp [hxi]⟩
  simp [sendMessageUpdateFlat, hany]

lemma updatePaginated_noop (m : Message) (o : Option PaginatedMessagesCache)
    (h : ∀ x ∈ paginatedMessages o, x.id = m.id → x = m) :
    messagesRealtimeUpdatePaginated m o = o := by
  cases o with
  | none => rfl
  | some c =>
    simp only [messagesRealtimeUpdatePaginated, Option.map_some', Option.some.injEq]
    have hpages : (c.pages.map fun page =>
        { page with messages := page.messages.map fun msg =>
            if msg.id == m.id then m else msg }) = c.pages := by
      have : ∀ page ∈ c.pages, ({ page with messages := page.messages.map fun msg =>
          if msg.id == m.id then m else msg } : MessagesPage) = page := by
        intro page hpage
        have hmsgs : (page.messages.map fun msg =>
            if msg.id == m.id then m else msg) = page.messages := by
          have : ∀ msg ∈ page.messages,
              (if msg.id == m.id then m else msg) = msg := by
            intro msg hmsg
            by_cases hid : (msg.id == m.id) = true
            · rw [if_pos hid]
              exact (h msg (List.mem_flatMap.mpr ⟨page, hpage, hmsg⟩)
                (by simpa using hid)).symm
            · rw [if_neg hid]
          rw [List.map_congr_left this]
          simp
        rw [hmsgs]
      calc (c.pages.map fun page =>
            { page with messages := page.messages.map fun msg =>
                if msg.id == m.id then m else msg })
          = c.pages.map (fun page => page) := List.map_congr_left this
        _ = c.pages := by simp
    rw [hpages]

lemma updateFlat_noop (m : Message) (o : Option (List Message))
    (h : ∀ x ∈ flatMessages o, x.id = m.id → x = m) :
    messagesRealtimeUpdateFlat m o = o := by
  cases o with
  | none => rfl
  | some l =>
    simp only [messagesRealtimeUpdateFlat, Option.map_some', Option.some.injEq]
    have : ∀ msg ∈ l, (if msg.id == m.id then m else msg) = msg := by
      intro msg hmsg
      by_cases hid : (msg.id == m.id) = true
      · rw [if_pos hid]
        exact (h msg hmsg (by simpa using hid)).symm
      · rw [if_neg hid]
    rw [List.map_congr_left this]
    simp

lemma deleteFlat_noop (m : Message) (o : Option (List Message))
    (h : ∀ x ∈ flatMessages o, x.id ≠ m.id) :
    messagesRealtimeDeleteFlat m o = o := by
  cases o with
  | none => rfl
  | some l =>
    simp only [messagesRealtimeDeleteFlat, Option.map_some', Option.some.injEq]
    exact List.filter_eq_self.mpr fun a ha => bne_iff_ne.mpr (h a ha)

lemma deletePaginated_pagesMessages_noop (m : Message)
    (o : Option PaginatedMessagesCache)
    (h : ∀ x ∈ paginatedMessages o, x.id ≠ m.id) :
    pagesMessagesOf (messagesRealtimeDeletePaginated m o) = pagesMessagesOf o := by
  cases o with
  | none => rfl
  | some c =>
    simp only [messagesRealtimeDeletePaginated, Option.map_some', pagesMessagesOf,
      List.map_map]
    refine List.map_congr_left fun page hpage => ?_
    show page.messages.filter _ = page.messages
    exact List.filter_eq_self.mpr fun a ha =>
      bne_iff_ne.mpr (h a (List.mem_flatMap.mpr ⟨page, hpage, ha⟩))

/-- Establishment: an insert event leaves both caches holding the id. -/
lemma hasId_established (m : Message) (e : MessageEvent) (s : MessagesCacheState)
    (he : e.isInsert = true) (hm : e.msg = m) :
    HasId m.id (applyMessageEvent s e) := by
  have step := countId_insertEvent e s m.id he (by rw [hm])
  constructor
  · rw [step.1]
    by_cases h0 : countId (paginatedMessages s.paginated) m.id = 0
    · rw [if_pos h0]; omega
    · rw [if_neg h0]; omega
  · rw [step.2]
    by_cases h0 : countId (flatMessages s.flat) m.id = 0
    · rw [if_pos h0]; omega
    · rw [if_neg h0]; omega

lemma allEqId_established (m : Message) (s : MessagesCacheState) :
    AllEqId m.id m (applyMessageEvent s (.realtimeUpdate m)) := by
  constructor
  · intro x hx hxi
    rw [show (applyMessageEvent s (.realtimeUpdate m)).paginated =
      messagesRealtimeUpdatePaginated m s.paginated from rfl,
      paginatedMessages_update] at hx
    obtain ⟨y, _, hyx⟩ := List.mem_map.mp hx
    by_cases hyid : (y.id == m.id) = true
    · rw [if_pos hyid] at hyx
      exact hyx.symm
    · rw [if_neg hyid] at hyx
      exact absurd (by simpa using (hyx ▸ hxi)) hyid
  · intro x hx hxi
    rw [show (applyMessageEvent s (.realtimeUpdate m)).flat =
      messagesRealtimeUpdateFlat m s.flat from rfl, flatMessages_update] at hx
    obtain ⟨y, _, hyx⟩ := List.mem_map.mp hx
    by_cases hyid : (y.id == m.id) = true
    · rw [if_pos hyid] at hyx
      exact hyx.symm
    · rw [if_neg hyid] at hyx
      exact absurd (by simpa using (hyx ▸ hxi)) hyid

lemma noId_established (m : Message) (s : MessagesCacheState) :
    NoId m.id (applyMessageEvent s (.realtimeDelete m)) := by
  constructor
  · intro x hx
    rw [show (applyMessageEvent s (.realtimeDelete m)).paginated =
      messagesRealtimeDeletePaginated m s.paginated from rfl,
      paginatedMessages_delete] at hx
    simpa using ((List.mem_filter.mp hx).2)
  · intro x hx
    rw [show (applyMessageEvent s (.realtimeDelete m)).flat =
      messagesRealtimeDeleteFlat m s.flat from rfl, flatMessages_delete] at hx
    simpa using ((List.mem_filter.mp hx).2)

lemma foldl_preserve {P : MessagesCacheState → Prop} (t : List MessageEvent)
    (hstep : ∀ e ∈ t, ∀ s, P s → P (applyMessageEvent s e)) :
    ∀ s, P s → P (t.foldl applyMessageEvent s) := by
  induction t with
  | nil => exact fun s hs => hs
  | cons e rest ih =>
    intro s hs
    rw [List.foldl_cons]
    exact ih (fun e' he' s' => hstep e' (by simp [he']) s')
      _ (hstep e (by simp) s hs)

lemma insertEvent_noop (m : Message) (e : MessageEvent) (s : MessagesCacheState)
    (he : e.isInsert = true) (hm : e.msg = m) (h : HasId m.id s) :
    applyMessageEvent s e = s := by
  obtain ⟨hp, hf⟩ := h
  obtain ⟨c, hc⟩ : ∃ c, s.paginated = some c := by
    cases hpag : s.paginated with
    | none => rw [hpag] at hp; simp [paginatedMessages, countId] at hp
    | some c => exact ⟨c, rfl⟩
  obtain ⟨l, hl⟩ : ∃ l, s.flat = some l := by
    cases hfl : s.flat with
    | none => rw [hfl] at hf; simp [flatMessages, countId] at hf
    | some l => exact ⟨l, rfl⟩
  rw [hc] at hp
  have hfl' : 0 < countId l m.id := by
    rw [hl] at hf; exact hf
  rcases s with ⟨pag, flat⟩
  simp only at hc hl
  subst hc hl
  cases e with
  | optimisticSend m' =>
    have hm' : m' = m := hm
    simp only [applyMessageEvent, MessagesCacheState.mk.injEq]
    exact ⟨by rw [hm', sendMessageUpdatePaginated_noop m c hp],
      by rw [hm', sendMessageUpdateFlat_noop m l hfl']⟩
  | realtimeInsert m' =>
    have hm' : m' = m := hm
    simp only [applyMessageEvent, MessagesCacheState.mk.injEq,
      realtimeInsert_paginated_eq, realtimeInsert_flat_eq]
    exact ⟨by rw [hm', sendMessageUpdatePaginated_noop m c hp],
      by rw [hm', sendMessageUpdateFlat_noop m l hfl']⟩
  | realtimeUpdate m' => simp [MessageEvent.isInsert] at he
  | realtimeDelete m' => simp [MessageEvent.isInsert] at he

lemma updateEvent_noop (m : Message) (s : MessagesCacheState)
    (h : AllEqId m.id m s) :
    applyMessageEvent s (.realtimeUpdate m) = s := by
  obtain ⟨hp, hf⟩ := h
  rcases s with ⟨pag, flat⟩
  simp only [applyMessageEvent, MessagesCacheState.mk.injEq]
  exact ⟨updatePaginated_noop m pag hp, updateFlat_noop m flat hf⟩

/-- Claim C2 (amended): the insert recipes (optimistic and realtime) and
the realtime update patch are commutative with respect to duplicate
delivery — after delivering the event once and then any events about other
message ids, a second delivery of the same event is a no-op on the full
cache state. The realtime delete patch converges on the cached message
lists of both caches, but not on the envelope: it decrements every page's
totalLoaded on each delivery. -/
theorem message_recipes_duplicate_delivery (e : MessageEvent)
    (t : List MessageEvent) (s : MessagesCacheState)
    (ht : ∀ e' ∈ t, e'.msg.id ≠ e.msg.id) :
    (e.isDelete = false →
      applyMessageEvent (t.foldl applyMessageEvent (applyMessageEvent s e)) e =
        t.foldl applyMessageEvent (applyMessageEvent s e)) ∧
    (e.isDelete = true →
      (applyMessageEvent (t.foldl applyMessageEvent (applyMessageEvent s e)) e).flat =
          (t.foldl applyMessageEvent (applyMessageEvent s e)).flat ∧
        pagesMessagesOf
            (applyMessageEvent (t.foldl applyMessageEvent (applyMessageEvent s e)) e).paginated =
          pagesMessagesOf (t.foldl applyMessageEvent (applyMessageEvent s e)).paginated) := by
  cases e with
  | optimisticSend m =>
    refine ⟨fun _ => ?_, fun hcon => by simp [MessageEvent.isDelete] at hcon⟩
    have hest : HasId m.id (applyMessageEvent s (.optimisticSend m)) :=
      hasId_established m _ s rfl rfl
    have hinv : HasId m.id
        (t.foldl applyMessageEvent (applyMessageEvent s (.optimisticSend m))) :=
      foldl_preserve t (fun e' he' s' => hasId_preserved m.id e' s' (ht e' he')) _ hest
    exact insertEvent_noop m _ _ rfl rfl hinv
  | realtimeInsert m =>
    refine ⟨fun _ => ?_, fun hcon => by simp [MessageEvent.isDelete] at hcon⟩
    have hest : HasId m.id (applyMessageEvent s (.realtimeInsert m)) :=
      hasId_established m _ s rfl rfl
    have hinv : HasId m.id
        (t.foldl applyMessageEvent (applyMessageEvent s (.realtimeInsert m))) :=
      foldl_preserve t (fun e' he' s' => hasId_preserved m.id e' s' (ht e' he')) _ hest
    exact insertEvent_noop m _ _ rfl rfl hinv
  | realtimeUpdate m =>
    refine ⟨fun _ => ?_, fun hcon => by simp [MessageEvent.isDelete] at hcon⟩
    have hest : AllEqId m.id m (applyMessageEvent s (.realtimeUpdate m)) :=
      allEqId_established m s
    have hinv : AllEqId m.id m
        (t.foldl applyMessageEvent (applyMessageEvent s (.realtimeUpdate m))) :=
      foldl_preserve t (fun e' he' s' => allEqId_preserved m.id m e' s' (ht e' he')) _ hest
    exact updateEvent_noop m _ hinv
  | realtimeDelete m =>
    refine ⟨fun hcon => by simp [MessageEvent.isDelete] at hcon, fun _ => ?_⟩
    have hest : NoId m.id (applyMessageEvent s (.realtimeDelete m)) :=
      noId_established m s
    have hinv : NoId m.id
        (t.foldl applyMessageEvent (applyMessageEvent s (.realtimeDelete m))) :=
      foldl_preserve t (fun e' he' s' => noId_preserved m.id e' s' (ht e' he')) _ hest
    exact ⟨deleteFlat_noop m _ hinv.2, deletePaginated_pagesMessages_noop m _ hinv.1⟩

/-- Witness for C2 (amended) at a concrete input: a realtime insert of m1,
then an unrelated insert of m2, then the duplicate delivery of m1 changes
nothing. -/
theorem message_recipes_duplicate_delivery_witness :
    (∀ e' ∈ [MessageEvent.realtimeInsert ⟨"m2", "M", "u2", "yo", 2, none⟩],
      e'.msg.id ≠ (MessageEvent.realtimeInsert
        ⟨"m1", "M", "u1", "hi", 1, none⟩).msg.id) ∧
    ((MessageEvent.realtimeInsert ⟨"m1", "M", "u1", "hi", 1, none⟩).isDelete = false →
      applyMessageEvent
          ([MessageEvent.realtimeInsert ⟨"m2", "M", "u2", "yo", 2, none⟩].foldl
            applyMessageEvent
            (applyMessageEvent ⟨none, none⟩
              (MessageEvent.realtimeInsert ⟨"m1", "M", "u1", "hi", 1, none⟩)))
          (MessageEvent.realtimeInsert ⟨"m1", "M", "u1", "hi", 1, none⟩) =
        [MessageEvent.realtimeInsert ⟨"m2", "M", "u2", "yo", 2, none⟩].foldl
          applyMessageEvent
          (applyMessageEvent ⟨none, none⟩
            (MessageEvent.realtimeInsert ⟨"m1", "M", "u1", "hi", 1, none⟩))) :=
  ⟨by decide,
   (message_recipes_duplicate_delivery
     (MessageEvent.realtimeInsert ⟨"m1", "M", "u1", "hi", 1, none⟩)
     [MessageEvent.realtimeInsert ⟨"m2", "M", "u2", "yo", 2, none⟩]
     ⟨none, none⟩ (by decide)).1⟩

/-- Counterexample refuting C2 as stated: delivering the same realtime
DELETE event twice does not converge to the same cache state as delivering
it once — the page's totalLoaded is decremented again on the duplicate
delivery. -/
theorem message_delete_not_duplicate_idempotent :
    applyMessageEvent
        (applyMessageEvent
          ⟨some ⟨[⟨[⟨"m1", "M", "u1", "hi", 1, none⟩], none, false, 1⟩], [0]⟩,
           some [⟨"m1", "M", "u1", "hi", 1, none⟩]⟩
          (MessageEvent.realtimeDelete ⟨"m1", "M", "u1", "hi", 1, none⟩))
        (MessageEvent.realtimeDelete ⟨"m1", "M", "u1", "hi", 1, none⟩) ≠
      applyMessageEvent
        ⟨some ⟨[⟨[⟨"m1", "M", "u1", "hi", 1, none⟩], none, false, 1⟩], [0]⟩,
         some [⟨"m1", "M", "u1", "hi", 1, none⟩]⟩
        (MessageEvent.realtimeDelete ⟨"m1", "M", "u1", "hi", 1, none⟩) := by
  decide

/-! ## Profiles, filters and the discovery queries

Embeds the queryFns of useDiscoverProfiles (flat, limit 50),
useDiscoverProfilesPaginated (range pagination over created_at descending)
and useDiscoverProfilesOptimized (flat, limit 20) from useProfiles.ts.
The remote PostgREST builder is modelled declaratively: the eq / neq /
gte / lte / not-in calls conjoin into a row predicate, the order clause
sorts, and limit / range slice the resulting row list. JS string
truthiness (empty string is falsy) is modelled by comparison with "".
-/

structure Profile where
  id : String
  first_name : String
  last_name : String
  age : Nat
  bio : String
  gender : String
  city : String
  state : String
  photos : List String
  show_age : Bool
  show_location : Bool
  show_online : Bool
  created_at : Nat
deriving DecidableEq, Repr

structure ProfileFilters where
  gender : String := ""
  ageRange : Option (Nat × Nat) := none
  stateFilter : String := ""
  cityFilter : String := ""
  interests : List String := []
deriving DecidableEq, Repr, Inhabited

structure LikeRow where
  liker_id : String
  liked_id : String
deriving DecidableEq, Repr

/-- Row predicate accumulated on the privacy_respecting_profiles builder:
neq id, optional gender / age-range / state / city filters, and the
negative-membership filter on already-liked ids (only applied when the
liked list is nonempty, as in the source). -/
def matchesDiscoveryFilters (filters : ProfileFilters)
    (likedProfileIds : List String) (userId : String) (p : Profile) : Bool :=
  (p.id != userId) &&
  (!(filters.gender != "" && filters.gender != "everyone") ||
    p.gender == filters.gender) &&
  (match filters.ageRange with
   | some range => decide (range.1 ≤ p.age) && decide (p.age ≤ range.2)
   | none => true) &&
  (filters.stateFilter == "" || p.state == filters.stateFilter) &&
  (filters.cityFilter == "" || p.city == filters.cityFilter) &&
  (likedProfileIds.isEmpty || !(likedProfileIds.contains p.id))

/-- The liked ids fetched first by every discovery queryFn. -/
def likedIdsOf (userId : String) (likes : List LikeRow) : List String :=
  (likes.filter fun lk => lk.liker_id == userId).map (·.liked_id)

/-- Insertion into a list kept sorted by a numeric key, descending. -/
def insertDescBy {α : Type} (key : α → Nat) (x : α) : List α → List α
  | [] => [x]
  | y :: ys => if key y ≤ key x then x :: y :: ys else y :: insertDescBy key x ys

/-- Sort by a numeric key, descending: model of ORDER BY key DESC. -/
def sortByKeyDesc {α : Type} (key : α → Nat) (l : List α) : List α :=
  l.foldr (insertDescBy key) []

/-- Client-side display transform of the discovery queryFns. The paginated
and optimized variants truncate photos to the first one. -/
structure DisplayProfile where
  id : String
  photos : List String
  displayName : String
  displayLocation : String
  showAge : Bool
  showLocation : Bool
  showOnline : Bool
deriving DecidableEq, Repr

def displayNameOf (p : Profile) : String :=
  if p.show_age && (p.age != 0) then
    p.first_name ++ " " ++ p.last_name ++ ", " ++ toString p.age
  else p.first_name ++ " " ++ p.last_name

def displayLocationOf (p : Profile) : String :=
  if p.show_location && (p.city != "") && (p.state != "") then
    p.city ++ ", " ++ p.state
  else "Location hidden"

def transformDiscoverProfile (p : Profile) : DisplayProfile :=
  { id := p.id
    photos := p.photos
    displayName := displayNameOf p
    displayLocation := displayLocationOf p
    showAge := p.show_age
    showLocation := p.show_location
    showOnline := p.show_online }

def transformDiscoverProfileFirstPhoto (p : Profile) : DisplayProfile :=
  { id := p.id
    photos := match p.photos with
              | [] => []
              | ph :: _ => [ph]
    displayName := displayNameOf p
    displayLocation := displayLocationOf p
    showAge := p.show_age
    showLocation := p.show_location
    showOnline := p.show_online }

/-- queryFn of useDiscoverProfiles: filter, limit 50, transform. -/
def useDiscoverProfilesQueryFn (filters : ProfileFilters) (userId : String)
    (likes : List LikeRow) (profilesTable : List Profile) : List DisplayProfile :=
  let likedProfileIds := likedIdsOf userId likes
  let data :=
    (profilesTable.filter (matchesDiscoveryFilters filters likedProfileIds userId)).take 50
  data.map transformDiscoverProfile

/-- queryFn of useDiscoverProfilesOptimized: filter, limit 20, transform
with first-photo truncation. -/
def useDiscoverProfilesOptimizedQueryFn (filters : ProfileFilters) (userId : String)
    (likes : List LikeRow) (profilesTable : List Profile) : List DisplayProfile :=
  let likedProfileIds := likedIdsOf userId likes
  let data :=
    (profilesTable.filter (matchesDiscoveryFilters filters likedProfileIds userId)).take 20
  data.map transformDiscoverProfileFirstPhoto

/-- The ordered candidate row list of the paginated discovery query:
filtered rows ordered by created_at descending. -/
def discoverCandidateRows (filters : ProfileFilters) (userId : String)
    (likes : List LikeRow) (profilesTable : List Profile) : List Profile :=
  sortByKeyDesc (·.created_at)
    (profilesTable.filter (matchesDiscoveryFilters filters (likedIdsOf userId likes) userId))

structure DiscoverPage where
  profiles : List DisplayProfile
  nextPage : Option Nat
  hasMore : Bool
deriving DecidableEq, Repr

/-- queryFn of useDiscoverProfilesPaginated at a given pageParam: range
slice [pageParam*pageSize, (pageParam+1)*pageSize) of the ordered
candidates; hasMore and nextPage are set iff a full page came back. -/
def useDiscoverProfilesPaginatedQueryFn (filters : ProfileFilters) (userId : String)
    (pageSize : Nat) (pageParam : Nat) (likes : List LikeRow)
    (profilesTable : List Profile) : DiscoverPage :=
  let rows := discoverCandidateRows filters userId likes profilesTable
  let data := (rows.drop (pageParam * pageSize)).take pageSize
  { profiles := data.map transformDiscoverProfileFirstPhoto
    nextPage := if data.length == pageSize then some (pageParam + 1) else none
    hasMore := data.length == pageSize }

/-! ## Paginated match messages

queryFn of useMatchMessagesPaginated: range slice of the match's messages
ordered by created_at descending, then reversed per page to chronological
order; totalLoaded is assigned (pageParam + 1) * pageSize. The smart hook
useMatchMessagesSmart flattens pages in page order and exposes the summed
per-page message counts as totalLoaded.
-/

def useMatchMessagesPaginatedQueryFn (matchMessages : List Message)
    (pageSize : Nat) (pageParam : Nat) : MessagesPage :=
  let data :=
    ((sortByKeyDesc (·.created_at) matchMessages).drop (pageParam * pageSize)).take
      pageSize
  { messages := data.reverse
    nextPage := if data.length == pageSize then some (pageParam + 1) else none
    hasMore := data.length == pageSize
    totalLoaded := ((pageParam + 1) * pageSize : Nat) }

/-- The paginated cache after fetching pages 0 .. numFetched-1 in order. -/
def fetchedPaginatedCache (matchMessages : List Message) (pageSize : Nat)
    (numFetched : Nat) : PaginatedMessagesCache :=
  { pages := (List.range numFetched).map
      (useMatchMessagesPaginatedQueryFn matchMessages pageSize)
    pageParams := List.range numFetched }

/-- Flattened data exposed by useMatchMessagesSmart on the paginated path. -/
def useMatchMessagesSmartData (pages : List MessagesPage) : List Message :=
  pages.flatMap (·.messages)

/-- totalLoaded exposed by useMatchMessagesSmart on the paginated path:
the reduce over page message-list lengths. -/
def useMatchMessagesSmartTotalLoaded (pages : List MessagesPage) : Nat :=
  pages.foldl (fun total page => total + page.messages.length) 0

/-! ## Discovery pagination boundary (C3) -/

/-- Number of pages the claim quantifies over: ceil(n / p). -/
def numDiscoverPages (n p : Nat) : Nat := (n + p - 1) / p

lemma ceil_div_of_dvd (q p : Nat) (hp : 0 < p) :
    numDiscoverPages (q * p) p = q := by
  rw [numDiscoverPages]
  have h1 : q * p + p - 1 = (p - 1) + p * q := by
    have : q * p = p * q := Nat.mul_comm q p
    omega
  rw [h1, Nat.add_mul_div_left _ _ hp, Nat.div_eq_of_lt (by omega)]
  omega

lemma ceil_div_of_not_dvd (q r p : Nat) (hp : 0 < p) (h1 : 1 ≤ r) (h2 : r < p) :
    numDiscoverPages (q * p + r) p = q + 1 := by
  rw [numDiscoverPages]
  have h3 : q * p + r + p - 1 = (r - 1) + p * (q + 1) := by
    have : p * (q + 1) = p * q + p := by ring
    have : q * p = p * q := Nat.mul_comm q p
    omega
  rw [h3, Nat.add_mul_div_left _ _ hp, Nat.div_eq_of_lt (by omega)]
  omega

lemma le_numDiscoverPages_mul (n p : Nat) (hp : 0 < p) :
    n ≤ numDiscoverPages n p * p := by
  have hmod := Nat.div_add_mod n p
  have hlt := Nat.mod_lt n hp
  rcases Nat.eq_zero_or_pos (n % p) with h0 | h0
  · have hn : n = (n / p) * p := by
      have : (n / p) * p = p * (n / p) := Nat.mul_comm _ _
      omega
    rw [hn, ceil_div_of_dvd _ _ hp]
  · have hn : n = (n / p) * p + n % p := by
      have : (n / p) * p = p * (n / p) := Nat.mul_comm _ _
      omega
    rw [hn, ceil_div_of_not_dvd _ _ _ hp h0 hlt]
    have : (n / p + 1) * p = (n / p) * p + p := by ring
    omega

lemma flatMap_range_slices {α : Type} (l : List α) (p m : Nat) :
    (List.range m).flatMap (fun k => (l.drop (k * p)).take p) = l.take (m * p) := by
  induction m with
  | zero => simp
  | succ m ih =>
    rw [List.range_succ, List.flatMap_append, ih]
    simp only [List.flatMap_cons, List.flatMap_nil, List.append_nil]
    rw [Nat.succ_mul, List.take_add]

lemma discover_page_length (filters : ProfileFilters) (userId : String)
    (likes : List LikeRow) (profilesTable : List Profile) (p k : Nat) :
    ((((discoverCandidateRows filters userId likes profilesTable).drop (k * p)).take
        p)).length =
      min p ((discoverCandidateRows filters userId likes profilesTable).length - k * p) := by
  simp [List.length_take, List.length_drop]

/-- Claim C3 (amended): over pages 0 .. ceil(n/p)-1 of the paginated
discovery query, every page before the last returns hasMore = true, the
last page returns hasMore = false exactly when p does not divide n, but
returns hasMore = true when p divides n (the last data page is then full,
and pagination terminates only on a subsequent empty fetch); the
concatenation of the pages in order is exactly the n candidate rows
(transformed for display), with no duplicates and no gaps. -/
theorem discover_pagination_boundary (filters : ProfileFilters) (userId : String)
    (likes : List LikeRow) (profilesTable : List Profile) (p : Nat) (hp : 0 < p) :
    (∀ k, k + 1 <
        numDiscoverPages (discoverCandidateRows filters userId likes profilesTable).length p →
      (useDiscoverProfilesPaginatedQueryFn filters userId p k likes
        profilesTable).hasMore = true) ∧
    (0 < (discoverCandidateRows filters userId likes profilesTable).length →
      ¬ p ∣ (discoverCandidateRows filters userId likes profilesTable).length →
      (useDiscoverProfilesPaginatedQueryFn filters userId p
        (numDiscoverPages (discoverCandidateRows filters userId likes
          profilesTable).length p - 1) likes profilesTable).hasMore = false) ∧
    (0 < (discoverCandidateRows filters userId likes profilesTable).length →
      p ∣ (discoverCandidateRows filters userId likes profilesTable).length →
      (useDiscoverProfilesPaginatedQueryFn filters userId p
        (numDiscoverPages (discoverCandidateRows filters userId likes
          profilesTable).length p - 1) likes profilesTable).hasMore = true) ∧
    (List.range
        (numDiscoverPages (discoverCandidateRows filters userId likes
          profilesTable).length p)).flatMap
        (fun k => (useDiscoverProfilesPaginatedQueryFn filters userId p k likes
          profilesTable).profiles) =
      (discoverCandidateRows filters userId likes profilesTable).map
        transformDiscoverProfileFirstPhoto := by
  have hlen := discover_page_length filters userId likes profilesTable p
  refine ⟨?_, ?_, ?_, ?_⟩
  · intro k hk
    have h2 : k + 2 ≤
        numDiscoverPages (discoverCandidateRows filters userId likes
          profilesTable).length p := hk
    rw [numDiscoverPages] at h2
    have h3 := (Nat.le_div_iff_mul_le hp).mp h2
    have h4 : (k + 2) * p = k * p + 2 * p := by ring
    simp only [useDiscoverProfilesPaginatedQueryFn]
    apply beq_iff_eq.mpr
    rw [hlen k]
    omega
  · intro hn hdvd
    have hmod := Nat.div_add_mod
      (discoverCandidateRows filters userId likes profilesTable).length p
    have hlt := Nat.mod_lt
      (discoverCandidateRows filters userId likes profilesTable).length hp
    have hr0 : (discoverCandidateRows filters userId likes profilesTable).length % p ≠ 0 :=
      fun h0 => hdvd (Nat.dvd_iff_mod_eq_zero.mpr h0)
    have hq : (discoverCandidateRows filters userId likes profilesTable).length =
        ((discoverCandidateRows filters userId likes profilesTable).length / p) * p +
          (discoverCandidateRows filters userId likes profilesTable).length % p := by
      have : ((discoverCandidateRows filters userId likes profilesTable).length / p) * p =
          p * ((discoverCandidateRows filters userId likes profilesTable).length / p) :=
        Nat.mul_comm _ _
      omega
    have hnum := ceil_div_of_not_dvd
      ((discoverCandidateRows filters userId likes profilesTable).length / p)
      ((discoverCandidateRows filters userId likes profilesTable).length % p) p hp
      (by omega) hlt
    rw [← hq] at hnum
    simp only [useDiscoverProfilesPaginatedQueryFn]
    apply beq_eq_false_iff_ne.mpr
    rw [hlen, hnum]
    simp only [Nat.add_sub_cancel]
    omega
  · intro hn hdvd
    obtain ⟨q, hq⟩ := hdvd
    have hq' : (discoverCandidateRows filters userId likes profilesTable).length =
        q * p := by rw [hq]; ring
    have hq1 : 1 ≤ q := by
      rcases Nat.eq_zero_or_pos q with h0 | h0
      · rw [h0] at hq'; omega
      · exact h0
    have hnum : numDiscoverPages
        (discoverCandidateRows filters userId likes profilesTable).length p = q := by
      rw [hq']
      exact ceil_div_of_dvd _ _ hp
    simp only [useDiscoverProfilesPaginatedQueryFn]
    apply beq_iff_eq.mpr
    rw [hlen, hnum]
    have hsub : (q - 1) * p = q * p - 1 * p := Nat.sub_mul q 1 p
    have hge : p ≤ q * p := Nat.le_mul_of_pos_left p hq1
    omega
  · simp only [useDiscoverProfilesPaginatedQueryFn]
    have hflat : (List.range
        (numDiscoverPages (discoverCandidateRows filters userId likes
          profilesTable).length p)).flatMap
        (fun k => (((discoverCandidateRows filters userId likes
          profilesTable).drop (k * p)).take p).map transformDiscoverProfileFirstPhoto) =
        ((List.range
          (numDiscoverPages (discoverCandidateRows filters userId likes
            profilesTable).length p)).flatMap
          (fun k => ((discoverCandidateRows filters userId likes
            profilesTable).drop (k * p)).take p)).map
          transformDiscoverProfileFirstPhoto := by
      rw [List.map_flatMap]
    rw [hflat, flatMap_range_slices, List.take_of_length_le]
    exact le_numDiscoverPages_mul _ _ hp

/-- Witness for C3 (amended) at a concrete input: three candidate rows
with page size 2 give two pages; page 0 is full (hasMore = true) and the
last page, page 1, is partial (hasMore = false). -/
theorem discover_pagination_boundary_witness :
    (useDiscoverProfilesPaginatedQueryFn {} "u" 2 0 []
      [⟨"p1", "Ann", "Lee", 30, "", "f", "Austin", "TX", [], true, true,
        true, 5⟩,
       ⟨"p2", "Bea", "Cox", 31, "", "f", "Austin", "TX", [], true, true,
        true, 6⟩,
       ⟨"p3", "Cal", "Day", 32, "", "m", "Austin", "TX", [], true, true,
        true, 7⟩]).hasMore = true ∧
    (useDiscoverProfilesPaginatedQueryFn {} "u" 2 1 []
      [⟨"p1", "Ann", "Lee", 30, "", "f", "Austin", "TX", [], true, true,
        true, 5⟩,
       ⟨"p2", "Bea", "Cox", 31, "", "f", "Austin", "TX", [], true, true,
        true, 6⟩,
       ⟨"p3", "Cal", "Day", 32, "", "m", "Austin", "TX", [], true, true,
        true, 7⟩]).hasMore = false :=
  ⟨(discover_pagination_boundary {} "u" []
      [⟨"p1", "Ann", "Lee", 30, "", "f", "Austin", "TX", [], true, true,
        true, 5⟩,
       ⟨"p2", "Bea", "Cox", 31, "", "f", "Austin", "TX", [], true, true,
        true, 6⟩,
       ⟨"p3", "Cal", "Day", 32, "", "m", "Austin", "TX", [], true, true,
        true, 7⟩] 2 (by decide)).1 0 (by decide),
   (discover_pagination_boundary {} "u" []
      [⟨"p1", "Ann", "Lee", 30, "", "f", "Austin", "TX", [], true, true,
        true, 5⟩,
       ⟨"p2", "Bea", "Cox", 31, "", "f", "Austin", "TX", [], true, true,
        true, 6⟩,
       ⟨"p3", "Cal", "Day", 32, "", "m", "Austin", "TX", [], true, true,
        true, 7⟩] 2 (by decide)).2.1 (by decide) (by decide)⟩

/-- Counterexample refuting C3 as stated: with one candidate row and page
size 1, the page range of the claim is the single page 0, which is the
last page yet returns hasMore = true (the fetched page is full), where
the claim demands hasMore = false on the last page. -/
theorem discover_pagination_last_page_counterexample :
    numDiscoverPages
        (discoverCandidateRows {} "u" []
          [⟨"p1", "Ann", "Lee", 30, "", "f", "Austin", "TX", [], true, true,
            true, 5⟩]).length 1 = 1 ∧
    (useDiscoverProfilesPaginatedQueryFn {} "u" 1 0 []
      [⟨"p1", "Ann", "Lee", 30, "", "f", "Austin", "TX", [], true, true,
        true, 5⟩]).hasMore = true := by
  constructor
  · rfl
  · rfl

/-! ## Chronological reconstruction of paginated messages (C4) -/

/-- Claim C4 evaluated at a failing input: four messages with timestamps
1,2,3,4 and page size 2. Page 0 holds the newest two (reversed to [3,4]),
page 1 the older two (reversed to [1,2]); the smart hook merges pages in
page order, exposing timestamps [3,4,1,2], which is not non-decreasing in
created_at. -/
theorem match_messages_assembled_not_chronological :
    ((useMatchMessagesSmartData
        (fetchedPaginatedCache
          [⟨"a", "M", "u", "1", 1, none⟩, ⟨"b", "M", "u", "2", 2, none⟩,
           ⟨"c", "M", "u", "3", 3, none⟩, ⟨"d", "M", "u", "4", 4, none⟩]
          2 2).pages).map (·.created_at) = [3, 4, 1, 2]) ∧
    ¬ List.Chain' (· ≤ ·)
        ((useMatchMessagesSmartData
          (fetchedPaginatedCache
            [⟨"a", "M", "u", "1", 1, none⟩, ⟨"b", "M", "u", "2", 2, none⟩,
             ⟨"c", "M", "u", "3", 3, none⟩, ⟨"d", "M", "u", "4", 4, none⟩]
            2 2).pages).map (·.created_at)) := by
  constructor
  · rfl
  · exact fun hc =>
      (by simp [List.chain'_cons] : ¬ List.Chain' (· ≤ ·) [3, 4, 1, 2]) hc

/-! ## totalLoaded semantics (C5) -/

lemma foldl_add_messages_length (pages : List MessagesPage) (acc : Nat) :
    pages.foldl (fun total page => total + page.messages.length) acc =
      acc + (pages.flatMap (·.messages)).length := by
  induction pages generalizing acc with
  | nil => simp
  | cons p0 rest ih =>
    rw [List.foldl_cons, ih, List.flatMap_cons, List.length_append]
    omega

/-- Claim C5 (amended): the totalLoaded field a fetched page carries is
the cumulative requested volume (pageParam + 1) * pageSize, independent of
how many rows actually came back; what useMatchMessagesSmart exposes as
totalLoaded, however, is not that field but the summed per-page message
count — the number of messages actually held across loaded pages. -/
theorem match_messages_totalLoaded_semantics :
    (∀ (matchMessages : List Message) (pageSize pageParam : Nat),
      (useMatchMessagesPaginatedQueryFn matchMessages pageSize
        pageParam).totalLoaded = ((pageParam + 1) * pageSize : Nat)) ∧
    (∀ (matchMessages matchMessages' : List Message) (pageSize pageParam : Nat),
      (useMatchMessagesPaginatedQueryFn matchMessages pageSize
        pageParam).totalLoaded =
      (useMatchMessagesPaginatedQueryFn matchMessages' pageSize
        pageParam).totalLoaded) ∧
    (∀ pages : List MessagesPage,
      useMatchMessagesSmartTotalLoaded pages =
        (useMatchMessagesSmartData pages).length) := by
  refine ⟨fun _ _ _ => rfl, fun _ _ _ _ => rfl, fun pages => ?_⟩
  rw [useMatchMessagesSmartTotalLoaded, useMatchMessagesSmartData,
    foldl_add_messages_length]
  omega

/-- Counterexample refuting C5 as stated: with one stored message and page
size 20, the fetched page carries totalLoaded = 20, but the totalLoaded the
smart layer exposes for UI display is 1 (the actual loaded count), not the
cumulative requested volume (0 + 1) * 20. -/
theorem match_messages_totalLoaded_counterexample :
    (useMatchMessagesPaginatedQueryFn [⟨"a", "M", "u", "1", 1, none⟩] 20
      0).totalLoaded = 20 ∧
    useMatchMessagesSmartTotalLoaded
      (fetchedPaginatedCache [⟨"a", "M", "u", "1", 1, none⟩] 20 1).pages = 1 ∧
    useMatchMessagesSmartTotalLoaded
      (fetchedPaginatedCache [⟨"a", "M", "u", "1", 1, none⟩] 20 1).pages ≠
      (0 + 1) * 20 := by
  refine ⟨rfl, rfl, by decide⟩

/-! ## Remote store model for the like / unlike mutations (C6, C7) -/

structure MatchRow where
  id : String
  user1_id : String
  user2_id : String
deriving DecidableEq, Repr

structure RemoteState where
  matchRows : List MatchRow
  messages : List Message
  likes : List LikeRow
deriving DecidableEq, Repr

inductive LikeOutcome
  | created
  | alreadyExists
deriving DecidableEq, Repr

/-- mutationFn of useLikeProfile on the happy remote path: select the
existing (liker_id, liked_id) rows first; if any exists resolve
successfully without inserting, else insert the new like row. -/
def likeProfileMutationFn (profileId userId : String) (st : RemoteState) :
    RemoteState × LikeOutcome :=
  let existingLikes := st.likes.filter fun lk =>
    lk.liker_id == userId && lk.liked_id == profileId
  if 0 < existingLikes.length then (st, .alreadyExists)
  else ({ st with likes := st.likes ++ [⟨userId, profileId⟩] }, .created)

def countLikeEdge (st : RemoteState) (likerId likedId : String) : Nat :=
  st.likes.countP fun lk => lk.liker_id == likerId && lk.liked_id == likedId

/-- Claim C6: liking the same profile twice, the second call after the
first succeeded, leaves exactly one like edge in the remote store; the
first call inserts, the second detects the existing row, performs no
write (the state is unchanged) and resolves as a no-op success rather
than an error. -/
theorem like_profile_idempotent (profileId userId : String) (st : RemoteState)
    (h : countLikeEdge st userId profileId = 0) :
    countLikeEdge (likeProfileMutationFn profileId userId st).1 userId
        profileId = 1 ∧
    (likeProfileMutationFn profileId userId st).2 = .created ∧
    likeProfileMutationFn profileId userId
        (likeProfileMutationFn profileId userId st).1 =
      ((likeProfileMutationFn profileId userId st).1, .alreadyExists) ∧
    countLikeEdge
        (likeProfileMutationFn profileId userId
          (likeProfileMutationFn profileId userId st).1).1 userId profileId = 1 := by
  have hfl : (st.likes.filter fun lk =>
      lk.liker_id == userId && lk.liked_id == profileId).length = 0 := by
    rw [← List.countP_eq_length_filter]
    exact h
  have hfirst : likeProfileMutationFn profileId userId st =
      ({ st with likes := st.likes ++ [⟨userId, profileId⟩] }, .created) := by
    simp only [likeProfileMutationFn, hfl]
    simp
  have hcount1 : countLikeEdge (likeProfileMutationFn profileId userId st).1
      userId profileId = 1 := by
    rw [hfirst]
    show List.countP (fun lk => lk.liker_id == userId && lk.liked_id == profileId)
        (st.likes ++ [⟨userId, profileId⟩]) = 1
    rw [List.countP_append]
    have h' : List.countP (fun lk =>
        lk.liker_id == userId && lk.liked_id == profileId) st.likes = 0 := h
    rw [h']
    simp
  have hsecond : likeProfileMutationFn profileId userId
      (likeProfileMutationFn profileId userId st).1 =
      ((likeProfileMutationFn profileId userId st).1, .alreadyExists) := by
    have hpos : 0 < ((likeProfileMutationFn profileId userId st).1.likes.filter
        fun lk => lk.liker_id == userId && lk.liked_id == profileId).length := by
      rw [← List.countP_eq_length_filter]
      show 0 < countLikeEdge (likeProfileMutationFn profileId userId st).1
        userId profileId
      omega
    generalize hst1 : (likeProfileMutationFn profileId userId st).1 = st1 at hpos ⊢
    simp only [likeProfileMutationFn]
    rw [if_pos hpos]
  exact ⟨hcount1, by rw [hfirst], hsecond, by rw [hsecond]; exact hcount1⟩

/-- Witness for C6 at a concrete input: user u likes profile p twice on an
initially empty store. -/
theorem like_profile_idempotent_witness :
    countLikeEdge ⟨[], [], []⟩ "u" "p" = 0 ∧
    countLikeEdge (likeProfileMutationFn "p" "u" ⟨[], [], []⟩).1 "u" "p" = 1 ∧
    likeProfileMutationFn "p" "u" (likeProfileMutationFn "p" "u" ⟨[], [], []⟩).1 =
      ((likeProfileMutationFn "p" "u" ⟨[], [], []⟩).1, .alreadyExists) ∧
    countLikeEdge
        (likeProfileMutationFn "p" "u"
          (likeProfileMutationFn "p" "u" ⟨[], [], []⟩).1).1 "u" "p" = 1 := by
  have h := like_profile_idempotent "p" "u" ⟨[], [], []⟩ (by decide)
  exact ⟨by decide, h.1, h.2.2.1, h.2.2.2⟩

/-! ## Unlike with failing cascade delete (C7) -/

/-- Modelled from the spec: the remote stored procedure
delete_match_and_messages, external to the client code, removes the match
row and all of its messages. -/
def delete_match_and_messages (matchId : String) (st : RemoteState) :
    RemoteState :=
  { st with
    matchRows := st.matchRows.filter fun mr => mr.id != matchId,
    messages := st.messages.filter fun msg => msg.match_id != matchId }

/-- mutationFn of useUnlikeProfile: look for a match in both directions;
if found, call the cascading-delete procedure, and on its failure only log
and continue; then delete the like edge (throwing only if that deletion
itself fails). -/
def useUnlikeProfileMutationFn (profileId userId : String)
    (rpcFails likeDeleteFails : Bool) (st : RemoteState) :
    Except String (RemoteState × String × String) :=
  let matchData := st.matchRows.filter fun mr =>
    (mr.user1_id == userId && mr.user2_id == profileId) ||
    (mr.user1_id == profileId && mr.user2_id == userId)
  let st1 :=
    match matchData with
    | [] => st
    | mr :: _ => if rpcFails then st else delete_match_and_messages mr.id st
  if likeDeleteFails then Except.error "like delete failed"
  else
    Except.ok
      ({ st1 with
          likes := st1.likes.filter fun lk =>
            !(lk.liker_id == userId && lk.liked_id == profileId) },
        profileId, userId)

/-- Query keys invalidated in useUnlikeProfile onSuccess. -/
def useUnlikeProfileInvalidations : List (List String) :=
  [["liked-profiles"], ["matches"], ["discover-profiles"]]

/-- The unlike operation: the remote mutation followed, on success only,
by the onSuccess invalidations. -/
def useUnlikeProfile (profileId userId : String)
    (rpcFails likeDeleteFails : Bool) (st : RemoteState) :
    Except String (RemoteState × List (List String)) :=
  match useUnlikeProfileMutationFn profileId userId rpcFails likeDeleteFails st with
  | .error e => .error e
  | .ok (st', _, _) => .ok (st', useUnlikeProfileInvalidations)

/-- Claim C7: when a match exists between the two users and the remote
cascading-delete procedure fails, the unlike still resolves successfully:
the like edge is deleted and the liked-profiles, matches and
discover-profiles keys are invalidated; the failed cascade leaves the
match and its messages in place. -/
theorem unlike_profile_tolerates_cascade_failure (profileId userId : String)
    (st : RemoteState)
    (hmatch : ∃ mr ∈ st.matchRows,
      (mr.user1_id = userId ∧ mr.user2_id = profileId) ∨
      (mr.user1_id = profileId ∧ mr.user2_id = userId)) :
    ∃ st', useUnlikeProfile profileId userId true false st =
        .ok (st', useUnlikeProfileInvalidations) ∧
      countLikeEdge st' userId profileId = 0 ∧
      st'.matchRows = st.matchRows ∧
      st'.messages = st.messages := by
  clear hmatch
  refine ⟨{ st with likes := st.likes.filter fun lk =>
    !(lk.liker_id == userId && lk.liked_id == profileId) }, ?_, ?_, rfl, rfl⟩
  · rw [useUnlikeProfile, useUnlikeProfileMutationFn]
    cases hdata : st.matchRows.filter fun mr =>
        (mr.user1_id == userId && mr.user2_id == profileId) ||
        (mr.user1_id == profileId && mr.user2_id == userId) with
    | nil => simp [hdata]
    | cons mr rest => simp [hdata]
  · rw [countLikeEdge, List.countP_eq_zero]
    intro lk hlk
    have := (List.mem_filter.mp hlk).2
    simp only [Bool.not_eq_eq_eq_not, Bool.not_true] at this
    simp [this]

/-- Witness for C7 at a concrete input: users u and p are matched, the
cascade delete fails, and the unlike still succeeds, removes the like
edge and invalidates the three keys. -/
theorem unlike_profile_tolerates_cascade_failure_witness :
    (∃ mr ∈ ((⟨[⟨"mt1", "u", "p"⟩],
        [⟨"m1", "mt1", "u", "hi", 1, none⟩],
        [⟨"u", "p"⟩, ⟨"p", "u"⟩]⟩ : RemoteState)).matchRows,
      (mr.user1_id = "u" ∧ mr.user2_id = "p") ∨
      (mr.user1_id = "p" ∧ mr.user2_id = "u")) ∧
    ∃ st', useUnlikeProfile "p" "u" true false
        { matchRows := [⟨"mt1", "u", "p"⟩],
          messages := [⟨"m1", "mt1", "u", "hi", 1, none⟩],
          likes := [⟨"u", "p"⟩, ⟨"p", "u"⟩] } =
        .ok (st', useUnlikeProfileInvalidations) ∧
      countLikeEdge st' "u" "p" = 0 ∧
      st'.matchRows = [⟨"mt1", "u", "p"⟩] ∧
      st'.messages = [⟨"m1", "mt1", "u", "hi", 1, none⟩] :=
  ⟨by decide,
   unlike_profile_tolerates_cascade_failure "p" "u"
     { matchRows := [⟨"mt1", "u", "p"⟩],
       messages := [⟨"m1", "mt1", "u", "hi", 1, none⟩],
       likes := [⟨"u", "p"⟩, ⟨"p", "u"⟩] }
     (by decide)⟩

/-! ## Smart fallback selection (C8)

useDiscoverProfilesSmart holds a persistent useOptimized flag, initially
true; each render selects the optimized path iff the flag is set and the
optimized query has no current error, and an effect latches the flag to
false on the first observed error. useMatchMessagesSmart holds no state:
it selects the paginated path iff the paginated query has no current
error. A render history is a list of error observations (true = the
primary query reports an error at that render); a selection list entry is
true when the primary (optimized / paginated) path is consumed.
-/

def shouldUseOptimized (useOptimized optimizedError : Bool) : Bool :=
  useOptimized && !optimizedError

/-- Effect of useDiscoverProfilesSmart: latch the flag to false when the
optimized query errors while the flag is still set. -/
def discoverSmartEffectStep (useOptimized optimizedError : Bool) : Bool :=
  if optimizedError && useOptimized then false else useOptimized

/-- Selection sequence of a useDiscoverProfilesSmart instance over a
render history, starting from a given flag state. -/
def discoverSmartRun (useOptimized : Bool) : List Bool → List Bool
  | [] => []
  | err :: rest =>
    shouldUseOptimized useOptimized err ::
      discoverSmartRun (discoverSmartEffectStep useOptimized err) rest

/-- Stateless selection of useMatchMessagesSmart: use the paginated path
iff the paginated query currently reports no error. -/
def matchMessagesShouldUsePaginated (paginatedError : Bool) : Bool :=
  !paginatedError

/-- Selection sequence of a useMatchMessagesSmart instance over a render
history. -/
def matchMessagesSmartRun (observations : List Bool) : List Bool :=
  observations.map matchMessagesShouldUsePaginated

lemma discoverSmartRun_false (l : List Bool) :
    discoverSmartRun false l = l.map fun _ => false := by
  induction l with
  | nil => rfl
  | cons e rest ih =>
    rw [discoverSmartRun]
    have hstep : discoverSmartEffectStep false e = false := by
      cases e <;> rfl
    rw [hstep, ih]
    simp [shouldUseOptimized]

lemma discoverSmartEffectStep_error (useOptimized : Bool) :
    discoverSmartEffectStep useOptimized true = false := by
  cases useOptimized <;> rfl

/-- Claim C8 (amended): useDiscoverProfilesSmart latches permanently —
from the render at which the optimized query first errors onward, every
selection in the instance's lifetime is the fallback path, whatever came
before and whatever the optimized query reports afterwards.
(useMatchMessagesSmart, by contrast, is stateless in the current error;
see the accompanying counterexample.) -/
theorem discover_smart_fallback_permanent (pre post : List Bool) :
    discoverSmartRun true (pre ++ true :: post) =
      discoverSmartRun true pre ++ false :: post.map (fun _ => false) := by
  suffices h : ∀ useOptimized : Bool,
      discoverSmartRun useOptimized (pre ++ true :: post) =
        discoverSmartRun useOptimized pre ++ false :: post.map (fun _ => false) from
    h true
  induction pre with
  | nil =>
    intro useOptimized
    simp only [List.nil_append, discoverSmartRun, discoverSmartEffectStep_error,
      discoverSmartRun_false, List.nil_append]
    simp [shouldUseOptimized]
  | cons e rest ih =>
    intro useOptimized
    simp only [List.cons_append, discoverSmartRun, List.append_eq]
    rw [ih]

/-- Counterexample refuting C8 as stated for useMatchMessagesSmart: the
paginated query errors at one render (selection falls back) and recovers
at the next, and consumption returns to the primary paginated path — the
switch is not permanent for that hook instance. -/
theorem match_messages_smart_returns_to_primary :
    matchMessagesSmartRun [true, false] = [false, true] := by decide

/-! ## PassProfile frame effect (C9) -/

/-- mutationFn of usePassProfile: no remote operation at all; it resolves
with the passed profileId. -/
def usePassProfileMutationFn (profileId : String) (st : RemoteState) :
    RemoteState × String :=
  (st, profileId)

/-- onSuccess recipe of usePassProfile: setQueriesData on the key prefix
["discover-profiles"] filters the passed id out of every matching cached
profile list; react-query prefix matching compares key elements, so only
keys whose first element is exactly "discover-profiles" are touched. -/
def usePassProfileOnSuccess (profileId : String)
    (cache : List (List String × List DisplayProfile)) :
    List (List String × List DisplayProfile) :=
  cache.map fun entry =>
    if ["discover-profiles"].isPrefixOf entry.1 then
      (entry.1, entry.2.filter fun profile => profile.id != profileId)
    else entry

/-- Claim C9 (amended): PassProfile performs no remote write; its only
cache effect is on entries whose key starts with "discover-profiles" (the
flat discovery queries), from which every profile with the passed id is
removed while all other profiles stay in order; every other cache entry —
including the discover-profiles-paginated and discover-profiles-optimized
caches — is left unchanged. -/
theorem pass_profile_frame (profileId : String) (st : RemoteState)
    (cache : List (List String × List DisplayProfile)) :
    (usePassProfileMutationFn profileId st).1 = st ∧
    (usePassProfileOnSuccess profileId cache).map Prod.fst =
      cache.map Prod.fst ∧
    (∀ entry ∈ cache, ¬ ["discover-profiles"].isPrefixOf entry.1 →
      entry ∈ usePassProfileOnSuccess profileId cache) ∧
    (∀ entry ∈ cache, ["discover-profiles"].isPrefixOf entry.1 →
      (entry.1, entry.2.filter fun profile => profile.id != profileId) ∈
        usePassProfileOnSuccess profileId cache) ∧
    (∀ entry ∈ usePassProfileOnSuccess profileId cache,
      ["discover-profiles"].isPrefixOf entry.1 →
        ∀ q ∈ entry.2, q.id ≠ profileId) := by
  refine ⟨rfl, ?_, ?_, ?_, ?_⟩
  · rw [usePassProfileOnSuccess, List.map_map]
    refine List.map_congr_left fun entry _ => ?_
    show Prod.fst (if _ then _ else _) = entry.1
    split <;> rfl
  · intro entry hentry hpre
    rw [usePassProfileOnSuccess]
    refine List.mem_map.mpr ⟨entry, hentry, ?_⟩
    rw [if_neg hpre]
  · intro entry hentry hpre
    rw [usePassProfileOnSuccess]
    refine List.mem_map.mpr ⟨entry, hentry, ?_⟩
    rw [if_pos hpre]
  · intro entry hentry hpre q hq
    rw [usePassProfileOnSuccess] at hentry
    obtain ⟨e, he, hee⟩ := List.mem_map.mp hentry
    by_cases hpre' : ["discover-profiles"].isPrefixOf e.1
    · rw [if_pos hpre'] at hee
      rw [← hee] at hq
      have := (List.mem_filter.mp hq).2
      exact bne_iff_ne.mp this
    · rw [if_neg hpre'] at hee
      rw [← hee] at hpre
      exact absurd hpre hpre'

/-- Witness for C9 (amended) at a concrete cache: a flat discovery entry
loses the passed profile, an optimized-key entry keeps it, and the
matches entry is untouched. -/
theorem pass_profile_frame_witness :
    ((⟨["matches", "u"], [⟨"p1", [], "n", "l", true, true, true⟩]⟩ :
        List String × List DisplayProfile) ∈
      usePassProfileOnSuccess "p1"
        [⟨["discover-profiles", "f", "u"], [⟨"p1", [], "n", "l", true, true, true⟩]⟩,
         ⟨["matches", "u"], [⟨"p1", [], "n", "l", true, true, true⟩]⟩]) ∧
    ((⟨["discover-profiles", "f", "u"], []⟩ :
        List String × List DisplayProfile) ∈
      usePassProfileOnSuccess "p1"
        [⟨["discover-profiles", "f", "u"], [⟨"p1", [], "n", "l", true, true, true⟩]⟩,
         ⟨["matches", "u"], [⟨"p1", [], "n", "l", true, true, true⟩]⟩]) :=
  ⟨(pass_profile_frame "p1" ⟨[], [], []⟩
      [⟨["discover-profiles", "f", "u"], [⟨"p1", [], "n", "l", true, true, true⟩]⟩,
       ⟨["matches", "u"], [⟨"p1", [], "n", "l", true, true, true⟩]⟩]).2.2.1
      (⟨["matches", "u"], [⟨"p1", [], "n", "l", true, true, true⟩]⟩)
      (by decide) (by decide),
   (pass_profile_frame "p1" ⟨[], [], []⟩
      [⟨["discover-profiles", "f", "u"], [⟨"p1", [], "n", "l", true, true, true⟩]⟩,
       ⟨["matches", "u"], [⟨"p1", [], "n", "l", true, true, true⟩]⟩]).2.2.2.1
      (⟨["discover-profiles", "f", "u"], [⟨"p1", [], "n", "l", true, true, true⟩]⟩)
      (by decide) (by decide)⟩

/-- Counterexample refuting C9 as stated: the optimized discovery query is
an active discovery query, yet its cached list
(key discover-profiles-optimized) still contains the passed profile after
the pass — the removal does not reach every discovery query's cache. -/
theorem pass_profile_optimized_cache_untouched :
    usePassProfileOnSuccess "p1"
        [⟨["discover-profiles-optimized", "f", "u"],
          [⟨"p1", [], "n", "l", true, true, true⟩]⟩] =
      [⟨["discover-profiles-optimized", "f", "u"],
        [⟨"p1", [], "n", "l", true, true, true⟩]⟩] := by decide

/-! ## Discovery queries exclude the viewer (C10) -/

lemma mem_insertDescBy {α : Type} (key : α → Nat) (x a : α) (l : List α) :
    a ∈ insertDescBy key x l ↔ a = x ∨ a ∈ l := by
  induction l with
  | nil => simp [insertDescBy]
  | cons y ys ih =>
    rw [insertDescBy]
    by_cases h : key y ≤ key x
    · simp [h]
    · rw [if_neg h]
      simp only [List.mem_cons, ih]
      tauto

lemma mem_sortByKeyDesc {α : Type} (key : α → Nat) (a : α) (l : List α) :
    a ∈ sortByKeyDesc key l ↔ a ∈ l := by
  induction l with
  | nil => simp [sortByKeyDesc]
  | cons y ys ih =>
    rw [sortByKeyDesc, List.foldr_cons, mem_insertDescBy]
    rw [sortByKeyDesc] at ih
    rw [ih]
    simp

lemma matchesDiscoveryFilters_id_ne (filters : ProfileFilters)
    (likedIds : List String) (userId : String) (p : Profile)
    (h : matchesDiscoveryFilters filters likedIds userId p = true) :
    p.id ≠ userId := by
  rw [matchesDiscoveryFilters] at h
  simp only [Bool.and_eq_true] at h
  exact bne_iff_ne.mp h.1.1.1.1.1

/-- Claim C10: each discovery query variant — flat, paginated and
optimized — never returns a profile whose id is the viewer's own userId,
for any filters, likes table, profile table and page. -/
theorem discover_queries_exclude_own_profile (filters : ProfileFilters)
    (userId : String) (likes : List LikeRow) (profilesTable : List Profile)
    (pageSize pageParam : Nat) :
    (∀ q ∈ useDiscoverProfilesQueryFn filters userId likes profilesTable,
      q.id ≠ userId) ∧
    (∀ q ∈ (useDiscoverProfilesPaginatedQueryFn filters userId pageSize
        pageParam likes profilesTable).profiles, q.id ≠ userId) ∧
    (∀ q ∈ useDiscoverProfilesOptimizedQueryFn filters userId likes
        profilesTable, q.id ≠ userId) := by
  refine ⟨?_, ?_, ?_⟩
  · intro q hq
    rw [useDiscoverProfilesQueryFn] at hq
    obtain ⟨pr, hpr, hq'⟩ := List.mem_map.mp hq
    have hmem := List.take_subset 50 _ hpr
    have hfil := (List.mem_filter.mp hmem).2
    rw [← hq']
    exact matchesDiscoveryFilters_id_ne _ _ _ _ hfil
  · intro q hq
    rw [useDiscoverProfilesPaginatedQueryFn] at hq
    obtain ⟨pr, hpr, hq'⟩ := List.mem_map.mp hq
    have hmem := List.drop_subset _ _ (List.take_subset pageSize _ hpr)
    rw [discoverCandidateRows, mem_sortByKeyDesc] at hmem
    have hfil := (List.mem_filter.mp hmem).2
    rw [← hq']
    exact matchesDiscoveryFilters_id_ne _ _ _ _ hfil
  · intro q hq
    rw [useDiscoverProfilesOptimizedQueryFn] at hq
    obtain ⟨pr, hpr, hq'⟩ := List.mem_map.mp hq
    have hmem := List.take_subset 20 _ hpr
    have hfil := (List.mem_filter.mp hmem).2
    rw [← hq']
    exact matchesDiscoveryFilters_id_ne _ _ _ _ hfil

/-- Witness for C10 at a concrete table containing the viewer's own row:
the other profile is returned by the flat query and its id differs from
the viewer's. -/
theorem discover_queries_exclude_own_profile_witness :
    (transformDiscoverProfile
        ⟨"p1", "Ann", "Lee", 30, "", "f", "Austin", "TX", [], true, true,
          true, 5⟩ ∈
      useDiscoverProfilesQueryFn {} "u" []
        [⟨"u", "Me", "Self", 28, "", "m", "Austin", "TX", [], true, true,
          true, 9⟩,
         ⟨"p1", "Ann", "Lee", 30, "", "f", "Austin", "TX", [], true, true,
          true, 5⟩]) ∧
    (transformDiscoverProfile
        ⟨"p1", "Ann", "Lee", 30, "", "f", "Austin", "TX", [], true, true,
          true, 5⟩).id ≠ "u" :=
  ⟨by decide,
   (discover_queries_exclude_own_profile {} "u" []
      [⟨"u", "Me", "Self", 28, "", "m", "Austin", "TX", [], true, true,
        true, 9⟩,
       ⟨"p1", "Ann", "Lee", 30, "", "f", "Austin", "TX", [], true, true,
        true, 5⟩] 10 0).1 _ (by decide)⟩

end DatingApp
